import Mathlib

/-!
Mural frame loop (`src/MuCore.cc`)

A shallow embedding of `mural::MuCore` and of the GLFW key callback `key`.

`MuCore.cc` consists of calls into GLFW, OpenGL, nanovg and the nanovg `perf`
helpers.  Each such call is recorded, in program order, in a log of `Call`s
kept in the state; every value the environment hands back (return values,
out-parameters, delivered window events) is read from an explicit input record
(`InitInput` for `init()`, one `FrameInput` per loop iteration).

`Number` is a typedef declared in `MuCore.h`, which is not part of the sources;
it receives `glfwGetTime()` and is passed to `glfwGetCursorPos`, hence a
floating-point type; timestamps are modelled as exact rationals.  The member
`ratio` is a `float` (initialised with `0.0f`); it is modelled by `F32`, the
values of IEEE 754 binary32, with the division of line 120 rounded to nearest,
ties to even.
-/

namespace mural

/-- The `Number` typedef of `MuCore.h`, modelled as exact rationals. -/
abbrev Number := ℚ

/-! ## The `float` type -/

/-- The values of IEEE 754 binary32.  `finite neg m e` is the non-zero number
`m * 2 ^ e`, negated when `neg`, where either `2 ^ 23 ≤ m < 2 ^ 24` and
`-149 ≤ e ≤ 104` (normal) or `m < 2 ^ 23` and `e = -149` (subnormal). -/
inductive F32 where
  | zero (neg : Bool)
  | finite (neg : Bool) (m : Nat) (e : Int)
  | inf (neg : Bool)
  | nan
  deriving DecidableEq, Repr

/-- Binary logarithm rounded down, `fuel` bounding the number of halvings. -/
def log2Fuel : Nat → Nat → Nat
  | 0, _ => 0
  | fuel + 1, n => if n < 2 then 0 else log2Fuel fuel (n / 2) + 1

/-- Binary logarithm of a positive natural number, rounded down. -/
def floorLog2 (n : Nat) : Nat := log2Fuel n n

/-- Binary logarithm of the quotient `n / d` of two positive naturals, rounded
down. -/
def quotExp (n d : Nat) : Int :=
  let e0 : Int := (floorLog2 n : Int) - (floorLog2 d : Int)
  if d * 2 ^ e0.toNat ≤ n * 2 ^ (-e0).toNat then e0 else e0 - 1

/-- The integer nearest to `n / d`, the even one of two equally near. -/
def roundHalfEven (n d : Nat) : Nat :=
  let q := n / d
  let r := n % d
  if 2 * r < d then q
  else if d < 2 * r then q + 1
  else if q % 2 = 0 then q else q + 1

/-- The binary32 value nearest to the quotient `n / d` of two positive
naturals (ties to even), with sign `neg`; overflow gives an infinity and
underflow a zero. -/
def roundF32 (neg : Bool) (n d : Nat) : F32 :=
  let ex := max (quotExp n d - 23) (-149)
  let m := roundHalfEven (n * 2 ^ (-ex).toNat) (d * 2 ^ ex.toNat)
  let ex1 := if m = 2 ^ 24 then ex + 1 else ex
  let m1 := if m = 2 ^ 24 then 2 ^ 23 else m
  if m1 = 0 then F32.zero neg
  else if 104 < ex1 then F32.inf neg
  else F32.finite neg m1 ex1

/-- The conversion `(float)a` of an `int`. -/
def intToF32 (a : Int) : F32 :=
  if a = 0 then F32.zero false else roundF32 (decide (a < 0)) a.natAbs 1

/-- The binary32 division `x / y`. -/
def F32.div : F32 → F32 → F32
  | F32.nan, _ => F32.nan
  | _, F32.nan => F32.nan
  | F32.inf _, F32.inf _ => F32.nan
  | F32.zero _, F32.zero _ => F32.nan
  | F32.inf a, F32.zero b => F32.inf (a != b)
  | F32.inf a, F32.finite b _ _ => F32.inf (a != b)
  | F32.finite a _ _, F32.zero b => F32.inf (a != b)
  | F32.zero a, F32.finite b _ _ => F32.zero (a != b)
  | F32.zero a, F32.inf b => F32.zero (a != b)
  | F32.finite a _ _, F32.inf b => F32.zero (a != b)
  | F32.finite a m1 e1, F32.finite b m2 e2 =>
    roundF32 (a != b) (m1 * 2 ^ (e1 - e2).toNat) (m2 * 2 ^ (e2 - e1).toNat)

/-! ## Constants of the third-party headers -/

def GL_FALSE : Int := 0
def GL_TRUE : Int := 1
def GLFW_PRESS : Int := 1
def GLFW_KEY_ESCAPE : Int := 256
def GLFW_OPENGL_CORE_PROFILE : Int := 0x00032001
def GLEW_OK : Int := 0
def NVG_ANTIALIAS : Nat := 1
def NVG_DEBUG : Nat := 4
def GL_COLOR_BUFFER_BIT : Nat := 0x4000
def GL_DEPTH_BUFFER_BIT : Nat := 0x100
def GL_STENCIL_BUFFER_BIT : Nat := 0x400
def GRAPH_RENDER_FPS : Int := 0
def GRAPH_RENDER_MS : Int := 1

/-- The three `PerfGraph` members of `MuCore`. -/
inductive Graph where
  | fpsGraph
  | cpuGraph
  | gpuGraph
  deriving DecidableEq, Repr

/-- The hints handed to `glfwWindowHint` in `init()`. -/
inductive Hint where
  | GLFW_RESIZABLE
  | GLFW_CONTEXT_VERSION_MAJOR
  | GLFW_CONTEXT_VERSION_MINOR
  | GLFW_OPENGL_FORWARD_COMPAT
  | GLFW_OPENGL_PROFILE
  | GLFW_OPENGL_DEBUG_CONTEXT
  | GLFW_SAMPLES
  deriving DecidableEq, Repr

/-- The calls `MuCore.cc` makes into its collaborators, with their arguments.
Pointers are addresses, `0` being the null pointer. -/
inductive Call where
  | printf (msg : String)
  | glfwInit
  | glfwSetErrorCallback
  | glfwWindowHint (hint : Hint) (value : Int)
  | glfwCreateWindow (width height : Int) (title : String)
  | glfwTerminate
  | glfwSetKeyCallback (window : Nat)
  | glfwMakeContextCurrent (window : Nat)
  | initGraph (g : Graph) (style : Int) (name : String)
  | glewInit
  | glGetError
  | nvgCreateGL3 (flags : Nat)
  | glfwGetWindowSize (window : Nat)
  | glfwGetFramebufferSize (window : Nat)
  | nvgCreateFont (renderer : Nat) (name path : String)
  | initGPUTimer
  | glfwSetTime (time : Number)
  | glfwGetTime
  | glfwWindowShouldClose (window : Nat)
  | startGPUTimer
  | glfwGetCursorPos (window : Nat)
  | glViewport (x y width height : Int)
  | glClearColor (r g b a : Number)
  | glClear (mask : Nat)
  | nvgBeginFrame (renderer : Nat) (width height : Int) (pixelRatio : F32)
  | appUpdate (appController : Nat) (dt : Number)
  | appRender (appController : Nat) (renderer : Nat)
  | renderGraph (renderer : Nat) (x y : Int) (g : Graph)
  | nvgEndFrame (renderer : Nat)
  | updateGraph (g : Graph) (frameTime : Number)
  | stopGPUTimer (maxTimes : Int)
  | glfwSwapBuffers (window : Nat)
  | glfwPollEvents
  | glfwSetWindowShouldClose (window : Nat) (value : Int)
  | deleteAppController (appController : Nat)
  | nvgDeleteGL3 (renderer : Nat)
  deriving DecidableEq, Repr

/-- The preprocessor symbols `MuCore.cc` tests. -/
structure Build where
  win32 : Bool
  demoMsaa : Bool
  nanovgGlew : Bool
  muralMsaa : Bool
  deriving DecidableEq, Repr

/-- The members of `MuCore`, together with the part of the environment the
code observes: the close flag GLFW keeps for the window, whether `key` is
installed as the key callback, and the log of the calls made so far. -/
structure MuCore where
  window : Nat
  renderer : Nat
  appController : Nat
  ratio : F32
  defaultFont : Int
  cpuTime : Number
  prevt : Number
  dt : Number
  winWidth : Int
  winHeight : Int
  fbWidth : Int
  fbHeight : Int
  gpuTimerSupported : Bool
  shouldClose : Bool
  keyCallback : Bool
  calls : List Call
  deriving DecidableEq, Repr

/-- Record one call in the log. -/
def MuCore.call (s : MuCore) (c : Call) : MuCore :=
  { s with calls := s.calls ++ [c] }

/-- Conversion of an `int` to `bool`, as applied to the operand of `return` in
a function returning `bool`: zero is `false`, every other value is `true`. -/
def boolOfInt (i : Int) : Bool := i != 0

/-- The constructor `MuCore::MuCore()`.  The members absent from the initialiser list
(`winWidth`, `winHeight`, `fbWidth`, `fbHeight`, `gpuTimer`) are written by
`init()` and `start()` before they are read; they start at `0` / `false`
here. -/
def MuCore.new : MuCore :=
  { window := 0
    renderer := 0
    appController := 0
    ratio := F32.zero false
    defaultFont := -1
    cpuTime := 0
    prevt := 0
    dt := 0
    winWidth := 0
    winHeight := 0
    fbWidth := 0
    fbHeight := 0
    gpuTimerSupported := false
    shouldClose := false
    keyCallback := false
    calls := [] }

/-- What the environment returns to the calls of `init()`. -/
structure InitInput where
  /-- return value of `glfwInit()` -/
  glfwInit : Int
  /-- return value of `glfwCreateWindow` (`0` is `NULL`) -/
  window : Nat
  /-- return value of `glewInit()` (only with `NANOVG_GLEW`) -/
  glewInit : Int
  /-- return value of `nvgCreateGL3` (`0` is `NULL`) -/
  renderer : Nat
  winWidth : Int
  winHeight : Int
  fbWidth : Int
  fbHeight : Int
  /-- return value of `nvgCreateFont` -/
  font : Int
  /-- value `initGPUTimer` leaves in `gpuTimer.supported` -/
  gpuSupported : Bool
  /-- reading of `glfwGetTime()` at line 129 -/
  time : Number
  deriving DecidableEq, Repr

/-- The window hints of lines 67-79. -/
def windowHints (b : Build) : List Call :=
  [Call.glfwWindowHint Hint.GLFW_RESIZABLE GL_FALSE]
  ++ (if b.win32 then [] else
        [Call.glfwWindowHint Hint.GLFW_CONTEXT_VERSION_MAJOR 3,
         Call.glfwWindowHint Hint.GLFW_CONTEXT_VERSION_MINOR 2,
         Call.glfwWindowHint Hint.GLFW_OPENGL_FORWARD_COMPAT GL_TRUE,
         Call.glfwWindowHint Hint.GLFW_OPENGL_PROFILE GLFW_OPENGL_CORE_PROFILE])
  ++ [Call.glfwWindowHint Hint.GLFW_OPENGL_DEBUG_CONTEXT 1]
  ++ (if b.demoMsaa then [Call.glfwWindowHint Hint.GLFW_SAMPLES 4] else [])

/-- Record a list of calls in the log, in order. -/
def MuCore.callAll (s : MuCore) (cs : List Call) : MuCore :=
  cs.foldl MuCore.call s

/-- Lines 116-132 of `init()`: pixel ratio, default font, GPU timer, clock. -/
def initClock (i : InitInput) (s : MuCore) : Bool × MuCore :=
  let s := s.call (Call.glfwGetWindowSize s.window)
  let s := { s with winWidth := i.winWidth, winHeight := i.winHeight }
  let s := s.call (Call.glfwGetFramebufferSize s.window)
  let s := { s with fbWidth := i.fbWidth, fbHeight := i.fbHeight }
  let s := { s with ratio := F32.div (intToF32 s.fbWidth) (intToF32 s.winWidth) }
  let s := s.call (Call.nvgCreateFont s.renderer "sans" "assets/Roboto-Regular.ttf")
  let s := { s with defaultFont := i.font }
  let s := s.call Call.initGPUTimer
  let s := { s with gpuTimerSupported := i.gpuSupported }
  let s := s.call (Call.glfwSetTime 0)
  let s := s.call Call.glfwGetTime
  let s := { s with prevt := i.time, dt := 0 }
  (true, s)

/-- Lines 96-114 of `init()`: GLEW and the nanovg renderer. -/
def initRenderer (b : Build) (i : InitInput) (s : MuCore) : Bool × MuCore :=
  let s := if b.nanovgGlew then s.call Call.glewInit else s
  if b.nanovgGlew && i.glewInit != GLEW_OK then
    (boolOfInt (-1), s.call (Call.printf "Could not init glew.\n"))
  else
  let s := if b.nanovgGlew then s.call Call.glGetError else s
  let s := s.call (Call.nvgCreateGL3
    (if b.muralMsaa then NVG_DEBUG else NVG_ANTIALIAS ||| NVG_DEBUG))
  let s := { s with renderer := i.renderer }
  if s.renderer = 0 then
    (boolOfInt (-1), s.call (Call.printf "Could not init nanovg.\n"))
  else
    initClock i s

/-- Lines 81-94 of `init()`: the window, the key callback and the graphs. -/
def initWindow (b : Build) (i : InitInput) (s : MuCore) : Bool × MuCore :=
  let s := s.call (Call.glfwCreateWindow 960 640 "Mural")
  let s := { s with window := i.window }
  if s.window = 0 then
    let s := s.call (Call.printf "Failed to create window.")
    (boolOfInt (-2), s.call Call.glfwTerminate)
  else
  let s := s.call (Call.glfwSetKeyCallback s.window)
  let s := { s with keyCallback := true }
  let s := s.call (Call.glfwMakeContextCurrent s.window)
  let s := s.call (Call.initGraph Graph.fpsGraph GRAPH_RENDER_FPS "Frame Time")
  let s := s.call (Call.initGraph Graph.cpuGraph GRAPH_RENDER_MS "CPU Time")
  let s := s.call (Call.initGraph Graph.gpuGraph GRAPH_RENDER_MS "GPU Time")
  initRenderer b i s

/-- The function `bool MuCore::init()`: the value returned and the state left behind. -/
def init (b : Build) (i : InitInput) (s : MuCore) : Bool × MuCore :=
  let s := s.call Call.glfwInit
  if i.glfwInit = 0 then
    (boolOfInt (-1), s.call (Call.printf "Failed to init GLFW."))
  else
  let s := s.call Call.glfwSetErrorCallback
  let s := s.callAll (windowHints b)
  initWindow b i s

/-! ## The key callback and event delivery -/

/-- The call `glfwSetWindowShouldClose(window, value)`: GLFW stores the flag. -/
def glfwSetWindowShouldClose (window : Nat) (value : Int) (s : MuCore) : MuCore :=
  let s := s.call (Call.glfwSetWindowShouldClose window value)
  { s with shouldClose := value != 0 }

/-- The key callback
`static void key(GLFWwindow*, int key, int scancode, int action, int mods)`. -/
def key (window : Nat) (key _scancode action _mods : Int) (s : MuCore) : MuCore :=
  if key = GLFW_KEY_ESCAPE && action = GLFW_PRESS then
    glfwSetWindowShouldClose window GL_TRUE s
  else
    s

/-- What GLFW may deliver while `glfwPollEvents()` runs: a key event, a close
request made through the window system, or an event `MuCore.cc` installs no
handler for. -/
inductive WindowEvent where
  | key (key scancode action mods : Int)
  | close
  | other
  deriving DecidableEq, Repr

/-- Delivery of one event: key events go to the installed key callback, a close
request sets the close flag of the window. -/
def deliver (s : MuCore) (e : WindowEvent) : MuCore :=
  match e with
  | WindowEvent.key k sc a m => if s.keyCallback then key s.window k sc a m s else s
  | WindowEvent.close => { s with shouldClose := true }
  | WindowEvent.other => s

/-- The call `glfwPollEvents()` with the events pending at that moment. -/
def glfwPollEvents (events : List WindowEvent) (s : MuCore) : MuCore :=
  events.foldl deliver (s.call Call.glfwPollEvents)

/-! ## The frame loop -/

/-- What the environment returns to the calls of one loop iteration. -/
structure FrameInput where
  /-- reading of `glfwGetTime()` at line 143 -/
  time : Number
  mx : Number
  my : Number
  winWidth : Int
  winHeight : Int
  fbWidth : Int
  fbHeight : Int
  /-- reading of `glfwGetTime()` at line 173 -/
  timeEnd : Number
  /-- return value of `stopGPUTimer` -/
  gpuCount : Int
  /-- contents of `gpuTimes` after `stopGPUTimer` -/
  gpuTimes : List Number
  /-- events delivered by `glfwPollEvents()` at line 186 -/
  events : List WindowEvent
  deriving DecidableEq, Repr

/-- The function `void MuCore::update()`. -/
def update (s : MuCore) : MuCore :=
  if s.appController ≠ 0 then s.call (Call.appUpdate s.appController s.dt) else s

/-- The function `void MuCore::render()`. -/
def render (s : MuCore) : MuCore :=
  if s.appController ≠ 0 then s.call (Call.appRender s.appController s.renderer) else s

/-- The function `void MuCore::tickAndRender()`. -/
def tickAndRender (s : MuCore) : MuCore :=
  render (update s)

/-- The `for` loop of lines 180-182, `n` being the value of `stopGPUTimer`. -/
def feedGpu (n : Int) (gpuTimes : List Number) (s : MuCore) : MuCore :=
  (List.range n.toNat).foldl
    (fun s i => s.call (Call.updateGraph Graph.gpuGraph (gpuTimes.getD i 0))) s

/-- Lines 143-158 of the loop body: frame timer, GPU timer, sizes, clear. -/
def frameBegin (f : FrameInput) (s : MuCore) : MuCore :=
  let s := s.call Call.glfwGetTime
  let s := { s with dt := f.time - s.prevt }
  let s := { s with prevt := f.time }
  let s := s.call Call.startGPUTimer
  let s := s.call (Call.glfwGetCursorPos s.window)
  let s := s.call (Call.glfwGetWindowSize s.window)
  let s := { s with winWidth := f.winWidth, winHeight := f.winHeight }
  let s := s.call (Call.glfwGetFramebufferSize s.window)
  let s := { s with fbWidth := f.fbWidth, fbHeight := f.fbHeight }
  let s := s.call (Call.glViewport 0 0 s.fbWidth s.fbHeight)
  let s := s.call (Call.glClearColor 0 0 0 0)
  s.call (Call.glClear (GL_COLOR_BUFFER_BIT ||| GL_DEPTH_BUFFER_BIT ||| GL_STENCIL_BUFFER_BIT))

/-- Lines 161-169 of the loop body: the nanovg frame. -/
def frameDraw (s : MuCore) : MuCore :=
  let s := s.call (Call.nvgBeginFrame s.renderer s.winWidth s.winHeight s.ratio)
  let s := tickAndRender s
  let s := s.call (Call.renderGraph s.renderer 5 5 Graph.fpsGraph)
  let s := s.call (Call.renderGraph s.renderer (5 + 200 + 5) 5 Graph.cpuGraph)
  let s := if s.gpuTimerSupported then
      s.call (Call.renderGraph s.renderer (5 + 200 + 5 + 200 + 5) 5 Graph.gpuGraph)
    else s
  s.call (Call.nvgEndFrame s.renderer)

/-- Lines 173-186 of the loop body, `t` being the local of line 143. -/
def frameEnd (f : FrameInput) (t : Number) (s : MuCore) : MuCore :=
  let s := s.call Call.glfwGetTime
  let s := { s with cpuTime := f.timeEnd - t }
  let s := s.call (Call.updateGraph Graph.fpsGraph s.dt)
  let s := s.call (Call.updateGraph Graph.cpuGraph s.cpuTime)
  let s := s.call (Call.stopGPUTimer 3)
  let s := feedGpu f.gpuCount f.gpuTimes s
  let s := s.call (Call.glfwSwapBuffers s.window)
  glfwPollEvents f.events s

/-- One execution of the body of the `while` loop of `start()`. -/
def frame (f : FrameInput) (s : MuCore) : MuCore :=
  frameEnd f f.time (frameDraw (frameBegin f s))

/-- The loop condition `!glfwWindowShouldClose(window)`: the state after the
query. -/
def loopTest (s : MuCore) : MuCore :=
  s.call (Call.glfwWindowShouldClose s.window)

/-- The function `void MuCore::start()` run against a script of per-iteration inputs.
`some s` is the state in which `start()` returns; `none` means the script ended
while the loop was still running. -/
def start : List FrameInput → MuCore → Option MuCore
  | [], s => if s.shouldClose then some (loopTest s) else none
  | f :: fs, s =>
    if s.shouldClose then some (loopTest s) else start fs (frame f (loopTest s))

/-- The iterations `start()` executes on a script: for each one the state at
the start of the loop body and the input it consumes. -/
def iterations : List FrameInput → MuCore → List (MuCore × FrameInput)
  | [], _ => []
  | f :: fs, s =>
    if s.shouldClose then [] else (loopTest s, f) :: iterations fs (frame f (loopTest s))

/-- The state reached after the iterations `start()` executes on a script,
before the loop condition is evaluated again. -/
def loopState : List FrameInput → MuCore → MuCore
  | [], s => s
  | f :: fs, s => if s.shouldClose then s else loopState fs (frame f (loopTest s))

/-- The function `void MuCore::terminate()`.  The expression
`delete appController` destroys the controller when the pointer is not null and
does nothing when it is null. -/
def terminate (s : MuCore) : MuCore :=
  let s := if s.appController ≠ 0 then s.call (Call.deleteAppController s.appController) else s
  let s := s.call (Call.nvgDeleteGL3 s.renderer)
  s.call Call.glfwTerminate

/-! ## Observations on the call log -/

/-- The samples handed to `updateGraph` for graph `g`, oldest first. -/
def fed (g : Graph) (cs : List Call) : List Number :=
  cs.filterMap fun c =>
    match c with
    | Call.updateGraph g1 v => if g1 = g then some v else none
    | _ => none

/-- The graphs handed to `renderGraph`, in call order. -/
def rendered (cs : List Call) : List Graph :=
  cs.filterMap fun c =>
    match c with
    | Call.renderGraph _ _ _ g => some g
    | _ => none

/-- The calls one iteration adds to the log. -/
def iterationCalls (f : FrameInput) (s : MuCore) : List Call :=
  (frame f s).calls.drop s.calls.length

/-- Reading of C6: every `updateGraph` call of a log comes after every
`glfwSwapBuffers` call of that log. -/
def FedAfterSwap (cs : List Call) : Prop :=
  ∀ (i j : Nat) (w : Nat) (g : Graph) (v : Number),
    cs[i]? = some (Call.glfwSwapBuffers w) → cs[j]? = some (Call.updateGraph g v) → i < j

/-- What the code does instead: every `updateGraph` call of a log comes before
every `glfwSwapBuffers` call of that log. -/
def FedBeforeSwap (cs : List Call) : Prop :=
  ∀ (i j : Nat) (w : Nat) (g : Graph) (v : Number),
    cs[i]? = some (Call.glfwSwapBuffers w) → cs[j]? = some (Call.updateGraph g v) → j < i

/-- The calls that release a resource. -/
def isRelease : Call → Bool
  | Call.deleteAppController _ => true
  | Call.nvgDeleteGL3 _ => true
  | Call.glfwTerminate => true
  | _ => false

/-- The calls into the Application Controller. -/
def isAppCall : Call → Bool
  | Call.appUpdate _ _ => true
  | Call.appRender _ _ => true
  | _ => false

/-- The pixel ratios handed to `nvgBeginFrame`, in call order. -/
def pixelRatios (cs : List Call) : List F32 :=
  cs.filterMap fun c =>
    match c with
    | Call.nvgBeginFrame _ _ _ r => some r
    | _ => none

/-! ## The calls of one iteration, segment by segment -/

/-- Whether delivering `e` sets the close flag, for a window whose key callback
is installed (`kc`) or not. -/
def closes (kc : Bool) : WindowEvent → Bool
  | WindowEvent.key k _ a _ => kc && (k = GLFW_KEY_ESCAPE && a = GLFW_PRESS)
  | WindowEvent.close => true
  | WindowEvent.other => false

/-- The calls made by the callbacks while `e` is delivered. -/
def callbackCalls (kc : Bool) (window : Nat) : WindowEvent → List Call
  | WindowEvent.key k _ a _ =>
    if kc && (k = GLFW_KEY_ESCAPE && a = GLFW_PRESS) then
      [Call.glfwSetWindowShouldClose window GL_TRUE]
    else []
  | WindowEvent.close => []
  | WindowEvent.other => []

/-- Calls of lines 143-158. -/
def beginCalls (f : FrameInput) (s : MuCore) : List Call :=
  [Call.glfwGetTime, Call.startGPUTimer, Call.glfwGetCursorPos s.window,
   Call.glfwGetWindowSize s.window, Call.glfwGetFramebufferSize s.window,
   Call.glViewport 0 0 f.fbWidth f.fbHeight, Call.glClearColor 0 0 0 0,
   Call.glClear (GL_COLOR_BUFFER_BIT ||| GL_DEPTH_BUFFER_BIT ||| GL_STENCIL_BUFFER_BIT)]

/-- Calls of `tickAndRender()` in an iteration reading `f`. -/
def appCalls (f : FrameInput) (s : MuCore) : List Call :=
  if s.appController ≠ 0 then
    [Call.appUpdate s.appController (f.time - s.prevt),
     Call.appRender s.appController s.renderer]
  else []

/-- Calls of lines 164-168. -/
def graphCalls (s : MuCore) : List Call :=
  [Call.renderGraph s.renderer 5 5 Graph.fpsGraph,
   Call.renderGraph s.renderer 210 5 Graph.cpuGraph]
  ++ (if s.gpuTimerSupported then [Call.renderGraph s.renderer 415 5 Graph.gpuGraph] else [])

/-- Calls of lines 175-182. -/
def feedCalls (f : FrameInput) (s : MuCore) : List Call :=
  [Call.updateGraph Graph.fpsGraph (f.time - s.prevt),
   Call.updateGraph Graph.cpuGraph (f.timeEnd - f.time),
   Call.stopGPUTimer 3]
  ++ (List.range f.gpuCount.toNat).map
      (fun i => Call.updateGraph Graph.gpuGraph (f.gpuTimes.getD i 0))

/-- Calls made by the callbacks during `glfwPollEvents()`. -/
def pollCalls (f : FrameInput) (s : MuCore) : List Call :=
  f.events.flatMap (callbackCalls s.keyCallback s.window)

/-- The calls of lines 143-185, every step of an iteration before the event
poll, in program order. -/
def bodyCalls (f : FrameInput) (s : MuCore) : List Call :=
  beginCalls f s
  ++ [Call.nvgBeginFrame s.renderer f.winWidth f.winHeight s.ratio]
  ++ appCalls f s
  ++ graphCalls s
  ++ [Call.nvgEndFrame s.renderer, Call.glfwGetTime]
  ++ feedCalls f s
  ++ [Call.glfwSwapBuffers s.window]

/-- All calls of one iteration, in program order. -/
def frameCalls (f : FrameInput) (s : MuCore) : List Call :=
  bodyCalls f s ++ [Call.glfwPollEvents] ++ pollCalls f s

/-- The clock readings of a script, in the order the loop takes them. -/
def readings (fs : List FrameInput) : List Number :=
  fs.flatMap fun f => [f.time, f.timeEnd]

/-! ## Success of `init()` and concrete inputs -/

/-- Whether every creation in `init()` succeeds, so that line 132 is reached. -/
def initOk (b : Build) (i : InitInput) : Bool :=
  i.glfwInit != 0 && i.window != 0 && !(b.nanovgGlew && i.glewInit != GLEW_OK)
    && i.renderer != 0

/-- A build for a non-Windows host without GLEW and without MSAA. -/
def plainBuild : Build :=
  { win32 := false, demoMsaa := false, nanovgGlew := false, muralMsaa := false }

/-- An environment in which every creation of `init()` succeeds, on a display
whose framebuffer has the size of the window. -/
def goodInit : InitInput :=
  { glfwInit := 1, window := 7, glewInit := 0, renderer := 9,
    winWidth := 960, winHeight := 640, fbWidth := 960, fbHeight := 640,
    font := 0, gpuSupported := false, time := 0 }

/-- A frame without events and without GPU samples. -/
def quietFrame (t tEnd : Number) : FrameInput :=
  { time := t, mx := 0, my := 0, winWidth := 960, winHeight := 640,
    fbWidth := 960, fbHeight := 640, timeEnd := tEnd, gpuCount := 0,
    gpuTimes := [], events := [] }

/-- The state `init()` leaves behind when called on a fresh `MuCore` in the
environment `goodInit`. -/
def readyCore : MuCore := (init plainBuild goodInit MuCore.new).2

/-- A frame without events in which `stopGPUTimer` hands back two samples. -/
def gpuFrame (t tEnd : Number) : FrameInput :=
  { quietFrame t tEnd with gpuCount := 2, gpuTimes := [3, 5] }

/-- A frame during whose event poll the escape key is pressed. -/
def escapeFrame (t tEnd : Number) : FrameInput :=
  { quietFrame t tEnd with events := [WindowEvent.key GLFW_KEY_ESCAPE 9 GLFW_PRESS 0] }

/-- A frame read after the window moved to a display with two framebuffer
pixels per window coordinate. -/
def hiDpiFrame (t tEnd : Number) : FrameInput :=
  { quietFrame t tEnd with fbWidth := 1920, fbHeight := 1280 }

/-- The state `readyCore` with an Application Controller attached. -/
def drivenCore : MuCore :=
  { readyCore with appController := 5 }

/-! ## Basic facts -/

theorem deliver_eq (s : MuCore) (e : WindowEvent) :
    deliver s e =
      { s with
        shouldClose := s.shouldClose || closes s.keyCallback e
        calls := s.calls ++ callbackCalls s.keyCallback s.window e } := by
  cases s
  cases e with
  | key k sc a m =>
    rename_i kc cs
    by_cases hk : kc = true <;>
    by_cases h : (k = GLFW_KEY_ESCAPE ∧ a = GLFW_PRESS) <;>
    simp [deliver, key, closes, callbackCalls, glfwSetWindowShouldClose, MuCore.call,
      GL_TRUE, hk, h]
  | close => simp [deliver, closes, callbackCalls]
  | other => simp [deliver, closes, callbackCalls]

theorem foldl_deliver_eq (es : List WindowEvent) (s : MuCore) :
    es.foldl deliver s =
      { s with
        shouldClose := s.shouldClose || es.any (closes s.keyCallback)
        calls := s.calls ++ es.flatMap (callbackCalls s.keyCallback s.window) } := by
  induction es generalizing s with
  | nil => simp
  | cons e es ih =>
    rw [List.foldl_cons, ih, deliver_eq]
    simp [Bool.or_assoc]

theorem foldl_call_eq (cs : List Call) (s : MuCore) :
    cs.foldl MuCore.call s = { s with calls := s.calls ++ cs } := by
  induction cs generalizing s with
  | nil => simp
  | cons c cs ih => rw [List.foldl_cons, ih]; simp [MuCore.call]

theorem feedGpu_eq (n : Int) (ts : List Number) (s : MuCore) :
    feedGpu n ts s =
      { s with
        calls := s.calls ++ (List.range n.toNat).map
          (fun i => Call.updateGraph Graph.gpuGraph (ts.getD i 0)) } := by
  unfold feedGpu
  generalize List.range n.toNat = l
  induction l generalizing s with
  | nil => simp
  | cons i l ih => rw [List.foldl_cons, ih]; simp [MuCore.call]

/-- The state one iteration leaves behind, member by member. -/
theorem frame_eq (f : FrameInput) (s : MuCore) :
    frame f s =
      { s with
        dt := f.time - s.prevt
        prevt := f.time
        winWidth := f.winWidth
        winHeight := f.winHeight
        fbWidth := f.fbWidth
        fbHeight := f.fbHeight
        cpuTime := f.timeEnd - f.time
        shouldClose := s.shouldClose || f.events.any (closes s.keyCallback)
        calls := s.calls ++ frameCalls f s } := by
  cases s
  rename_i w r app ra df ct pt d ww wh fw fh sup sc kc cs
  by_cases ha : app = 0 <;> cases sup <;>
  simp [frame, frameEnd, frameDraw, frameBegin, tickAndRender, update, render,
    glfwPollEvents, foldl_deliver_eq, feedGpu_eq, MuCore.call, frameCalls, bodyCalls, beginCalls,
    appCalls, graphCalls, feedCalls, pollCalls, ha]

theorem loopTest_eq (s : MuCore) :
    loopTest s = { s with calls := s.calls ++ [Call.glfwWindowShouldClose s.window] } := rfl

/-- The members an iteration reads but never writes keep, in every iteration,
the value they have when `start()` is entered. -/
theorem iterations_fixed (fs : List FrameInput) (s : MuCore) :
    ∀ p ∈ iterations fs s,
      p.1.window = s.window ∧ p.1.renderer = s.renderer ∧
      p.1.appController = s.appController ∧ p.1.ratio = s.ratio ∧
      p.1.gpuTimerSupported = s.gpuTimerSupported ∧ p.1.keyCallback = s.keyCallback := by
  induction fs generalizing s with
  | nil => simp [iterations]
  | cons f fs ih =>
    intro p hp
    by_cases hc : s.shouldClose = true
    · simp [iterations, hc] at hp
    · simp only [iterations, hc, Bool.false_eq_true, if_false, List.mem_cons] at hp
      rcases hp with rfl | hp
      · simp [loopTest_eq]
      · have h := ih _ p hp
        simpa [frame_eq, loopTest_eq] using h

/-- The state a successful `init()` leaves behind. -/
theorem init_ok_fields (b : Build) (i : InitInput) (s : MuCore) (h : initOk b i = true) :
    (init b i s).2.prevt = i.time ∧ (init b i s).2.dt = 0 ∧
    (init b i s).2.ratio = F32.div (intToF32 i.fbWidth) (intToF32 i.winWidth) ∧
    (init b i s).2.window = i.window ∧ (init b i s).2.renderer = i.renderer ∧
    (init b i s).2.appController = s.appController ∧
    (init b i s).2.gpuTimerSupported = i.gpuSupported ∧
    (init b i s).2.keyCallback = true ∧ (init b i s).2.shouldClose = s.shouldClose := by
  simp only [initOk, Bool.and_eq_true, bne_iff_ne, ne_eq, Bool.not_eq_true'] at h
  obtain ⟨⟨⟨h1, h2⟩, h3⟩, h4⟩ := h
  cases s
  simp [init, initWindow, initRenderer, initClock, MuCore.call, MuCore.callAll,
    foldl_call_eq, h1, h2, h3, h4]
  split_ifs <;> simp

theorem readings_cons (f : FrameInput) (fs : List FrameInput) :
    readings (f :: fs) = f.time :: f.timeEnd :: readings fs := by
  simp [readings]

theorem iterations_cons_open (f : FrameInput) (fs : List FrameInput) (s : MuCore)
    (h : s.shouldClose = false) :
    iterations (f :: fs) s = (loopTest s, f) :: iterations fs (frame f (loopTest s)) := by
  simp [iterations, h]

theorem iterations_closed (fs : List FrameInput) (s : MuCore) (h : s.shouldClose = true) :
    iterations fs s = [] := by
  cases fs <;> simp [iterations, h]

theorem delta_of_sorted (fs : List FrameInput) (s : MuCore)
    (h : List.Sorted (· ≤ ·) (s.prevt :: readings fs)) :
    ∀ p ∈ iterations fs s,
      (frame p.2 p.1).dt = p.2.time - p.1.prevt ∧ 0 ≤ (frame p.2 p.1).dt ∧
      (frame p.2 p.1).prevt = p.2.time := by
  induction fs generalizing s with
  | nil => simp [iterations]
  | cons f fs ih =>
    intro p hp
    cases hc : s.shouldClose with
    | true => simp [iterations_closed _ _ hc] at hp
    | false =>
      rw [iterations_cons_open _ _ _ hc, List.mem_cons] at hp
      rw [readings_cons] at h
      have h1 : s.prevt ≤ f.time := List.rel_of_sorted_cons h f.time (List.mem_cons_self _ _)
      rcases hp with rfl | hp
      · simp [frame_eq, loopTest_eq, h1]
      · apply ih (frame f (loopTest s)) _ p hp
        have h2 : List.Sorted (· ≤ ·) (f.time :: f.timeEnd :: readings fs) := h.of_cons
        have h3 : (f.time :: readings fs).Sublist (f.time :: f.timeEnd :: readings fs) :=
          (List.sublist_cons_self _ _).cons₂ _
        simpa [frame_eq] using List.Pairwise.sublist h3 h2

theorem cpu_of_sorted (fs : List FrameInput) (s : MuCore)
    (h : List.Sorted (· ≤ ·) (readings fs)) :
    List.Chain'
      (fun p q : MuCore × FrameInput =>
        (frame p.2 p.1).cpuTime = p.2.timeEnd - p.2.time ∧
        (frame q.2 q.1).dt = q.2.time - p.2.time ∧
        (frame p.2 p.1).cpuTime ≤ (frame q.2 q.1).dt)
      (iterations fs s) := by
  induction fs generalizing s with
  | nil => simp [iterations]
  | cons f fs ih =>
    cases hc : s.shouldClose with
    | true => simp [iterations_closed _ _ hc]
    | false =>
      rw [iterations_cons_open _ _ _ hc, List.chain'_cons']
      rw [readings_cons] at h
      refine ⟨?_, ih _ h.of_cons.of_cons⟩
      intro q hq
      cases fs with
      | nil => simp [iterations] at hq
      | cons g gs =>
        cases hc2 : (frame f (loopTest s)).shouldClose with
        | true => simp [iterations_closed _ _ hc2] at hq
        | false =>
          rw [iterations_cons_open _ _ _ hc2] at hq
          simp only [List.head?_cons, Option.mem_def, Option.some.injEq] at hq
          subst hq
          rw [readings_cons] at h
          have h1 : f.timeEnd ≤ g.time :=
            List.rel_of_sorted_cons h.of_cons g.time (List.mem_cons_self _ _)
          simp [frame_eq, loopTest_eq, h1]

theorem readyCore_fields :
    readyCore.prevt = 0 ∧ readyCore.ratio = F32.finite false 8388608 (-23) ∧
    readyCore.window = 7 ∧
    readyCore.renderer = 9 ∧ readyCore.appController = 0 ∧
    readyCore.gpuTimerSupported = false ∧ readyCore.keyCallback = true ∧
    readyCore.shouldClose = false := by
  have h := init_ok_fields plainBuild goodInit MuCore.new rfl
  obtain ⟨h1, -, h3, h4, h5, h6, h7, h8, h9⟩ := h
  refine ⟨h1, ?_, h4, h5, h6, h7, h8, h9⟩
  rw [readyCore, h3]
  decide

theorem iterations_two_quiet (a b c d : Number) (s : MuCore) (h : s.shouldClose = false) :
    (iterations [quietFrame a b, quietFrame c d] s).length = 2 := by
  simp [iterations, frame_eq, loopTest_eq, quietFrame, h]

theorem fed_append (g : Graph) (a b : List Call) : fed g (a ++ b) = fed g a ++ fed g b := by
  simp [fed, List.filterMap_append]

theorem fed_pollCalls (g : Graph) (f : FrameInput) (s : MuCore) : fed g (pollCalls f s) = [] := by
  unfold fed
  rw [List.filterMap_eq_nil_iff]
  intro c hc
  simp only [pollCalls, List.mem_flatMap] at hc
  obtain ⟨e, -, he⟩ := hc
  cases e with
  | key k sc a m =>
    simp only [callbackCalls] at he
    split_ifs at he
    · simp at he; subst he; rfl
    · simp at he
  | close => simp [callbackCalls] at he
  | other => simp [callbackCalls] at he

theorem fed_gpu_samples (g : Graph) (n : Nat) (ts : List Number) :
    fed g ((List.range n).map fun i => Call.updateGraph Graph.gpuGraph (ts.getD i 0)) =
      if g = Graph.gpuGraph then (List.range n).map fun i => ts.getD i 0 else [] := by
  generalize List.range n = l
  induction l with
  | nil => simp [fed]
  | cons i l ih =>
    simp only [fed] at ih
    cases g <;> simp_all [fed]

/-- The samples one iteration feeds into graph `g`. -/
theorem fed_frameCalls (g : Graph) (f : FrameInput) (s : MuCore) :
    fed g (frameCalls f s) =
      match g with
      | Graph.fpsGraph => [f.time - s.prevt]
      | Graph.cpuGraph => [f.timeEnd - f.time]
      | Graph.gpuGraph => (List.range f.gpuCount.toNat).map fun i => f.gpuTimes.getD i 0 := by
  have h1 : fed g (beginCalls f s) = [] := by simp [fed, beginCalls]
  have h2 : fed g (appCalls f s) = [] := by
    unfold appCalls; split_ifs <;> simp [fed]
  have h3 : fed g (graphCalls s) = [] := by
    unfold graphCalls; split_ifs <;> simp [fed]
  simp only [frameCalls, bodyCalls, feedCalls, fed_append, h1, h2, h3, fed_pollCalls,
    fed_gpu_samples]
  cases g <;> simp [fed]

theorem fed_loopState (g : Graph) (fs : List FrameInput) (s : MuCore) :
    fed g (loopState fs s).calls =
      fed g s.calls ++ (iterations fs s).flatMap fun p => fed g (frameCalls p.2 p.1) := by
  induction fs generalizing s with
  | nil => simp [loopState, iterations]
  | cons f fs ih =>
    cases hc : s.shouldClose with
    | true => simp [loopState, iterations, hc]
    | false =>
      simp only [loopState, hc, Bool.false_eq_true, if_false, iterations_cons_open _ _ _ hc,
        List.flatMap_cons]
      rw [ih, frame_eq]
      simp [fed_append, loopTest_eq, fed]

theorem flatMap_single {α β : Type} (l : List α) (f : α → β) :
    (l.flatMap fun a => [f a]) = l.map f := by
  induction l with
  | nil => rfl
  | cons a l ih => simp [List.flatMap_cons, ih]

theorem iterations_input_mem (fs : List FrameInput) (s : MuCore) :
    ∀ p ∈ iterations fs s, p.2 ∈ fs := by
  induction fs generalizing s with
  | nil => simp [iterations]
  | cons f fs ih =>
    intro p hp
    cases hc : s.shouldClose with
    | true => simp [iterations_closed _ _ hc] at hp
    | false =>
      rw [iterations_cons_open _ _ _ hc, List.mem_cons] at hp
      rcases hp with rfl | hp
      · simp
      · exact List.mem_cons_of_mem _ (ih _ p hp)

theorem start_eq (fs : List FrameInput) (s : MuCore) :
    start fs s =
      if (loopState fs s).shouldClose then some (loopTest (loopState fs s)) else none := by
  induction fs generalizing s with
  | nil => simp [start, loopState]
  | cons f fs ih =>
    cases hc : s.shouldClose with
    | true => simp [start, loopState, hc]
    | false => simp [start, loopState, hc, ih]

theorem test_not_in_frameCalls (f : FrameInput) (s : MuCore) (w : Nat) :
    Call.glfwWindowShouldClose w ∉ frameCalls f s := by
  have h : Call.glfwWindowShouldClose w ∉ pollCalls f s := by
    simp only [pollCalls, List.mem_flatMap, not_exists, not_and]
    intro e _
    cases e with
    | key k sc a m => simp only [callbackCalls]; split_ifs <;> simp
    | close => simp [callbackCalls]
    | other => simp [callbackCalls]
  simp only [frameCalls, bodyCalls, beginCalls, appCalls, graphCalls, feedCalls]
  split_ifs <;> simp [h]

theorem iterationCalls_eq (f : FrameInput) (s : MuCore) :
    iterationCalls f s = frameCalls f s := by
  simp [iterationCalls, frame_eq]

/-- In a log split as `A ++ B` where no element of `A` satisfies `p` and no
element of `B` satisfies `q`, every `q`-element comes before every `p`-element. -/
theorem index_lt_of_split {α : Type} (A B : List α) (p q : α → Prop)
    (hA : ∀ a ∈ A, ¬ p a) (hB : ∀ b ∈ B, ¬ q b) (i j : Nat) (x y : α)
    (hi : (A ++ B)[i]? = some x) (hx : p x) (hj : (A ++ B)[j]? = some y) (hy : q y) :
    j < i := by
  have h1 : A.length ≤ i := by
    by_contra hlt
    push_neg at hlt
    rw [List.getElem?_append_left hlt] at hi
    exact hA x (List.getElem?_mem hi) hx
  have h2 : j < A.length := by
    by_contra hge
    push_neg at hge
    rw [List.getElem?_append_right hge] at hj
    exact hB y (List.getElem?_mem hj) hy
  omega

theorem pollCalls_mem (f : FrameInput) (s : MuCore) (c : Call) (h : c ∈ pollCalls f s) :
    c = Call.glfwSetWindowShouldClose s.window GL_TRUE := by
  simp only [pollCalls, List.mem_flatMap] at h
  obtain ⟨e, -, he⟩ := h
  cases e with
  | key k sc a m =>
    simp only [callbackCalls] at he
    split_ifs at he
    · simpa using he
    · simp at he
  | close => simp [callbackCalls] at he
  | other => simp [callbackCalls] at he

theorem release_frameCalls (f : FrameInput) (s : MuCore) :
    (frameCalls f s).filter isRelease = [] := by
  have hpoll : (pollCalls f s).filter isRelease = [] := by
    rw [List.filter_eq_nil_iff]
    intro c hc
    rw [pollCalls_mem f s c hc]
    simp [isRelease]
  have hfeed : (feedCalls f s).filter isRelease = [] := by
    simp [feedCalls, List.filter_eq_nil_iff, isRelease]
  have happ : (appCalls f s).filter isRelease = [] := by
    unfold appCalls; split_ifs <;> simp [isRelease]
  have hgraph : (graphCalls s).filter isRelease = [] := by
    unfold graphCalls; split_ifs <;> simp [isRelease]
  simp [frameCalls, bodyCalls, beginCalls, List.filter_append, hpoll, hfeed, happ, hgraph,
    isRelease]

theorem loopState_fixed (fs : List FrameInput) (s : MuCore) :
    (loopState fs s).appController = s.appController ∧
    (loopState fs s).renderer = s.renderer ∧
    (loopState fs s).calls.filter isRelease = s.calls.filter isRelease := by
  induction fs generalizing s with
  | nil => simp [loopState]
  | cons f fs ih =>
    cases hc : s.shouldClose with
    | true => simp [loopState, hc]
    | false =>
      simp only [loopState, hc, Bool.false_eq_true, if_false]
      obtain ⟨h1, h2, h3⟩ := ih (frame f (loopTest s))
      rw [h1, h2, h3]
      simp [frame_eq, release_frameCalls, loopTest_eq, isRelease]

theorem start_some (fs : List FrameInput) (s s1 : MuCore) (h : start fs s = some s1) :
    s1 = loopTest (loopState fs s) ∧ (loopState fs s).shouldClose = true := by
  rw [start_eq] at h
  split_ifs at h with hc
  exact ⟨(Option.some.inj h).symm, hc⟩

theorem readyCore_calls :
    readyCore.calls =
      [Call.glfwInit, Call.glfwSetErrorCallback,
       Call.glfwWindowHint Hint.GLFW_RESIZABLE 0,
       Call.glfwWindowHint Hint.GLFW_CONTEXT_VERSION_MAJOR 3,
       Call.glfwWindowHint Hint.GLFW_CONTEXT_VERSION_MINOR 2,
       Call.glfwWindowHint Hint.GLFW_OPENGL_FORWARD_COMPAT 1,
       Call.glfwWindowHint Hint.GLFW_OPENGL_PROFILE 0x00032001,
       Call.glfwWindowHint Hint.GLFW_OPENGL_DEBUG_CONTEXT 1,
       Call.glfwCreateWindow 960 640 "Mural",
       Call.glfwSetKeyCallback 7, Call.glfwMakeContextCurrent 7,
       Call.initGraph Graph.fpsGraph 0 "Frame Time",
       Call.initGraph Graph.cpuGraph 1 "CPU Time",
       Call.initGraph Graph.gpuGraph 1 "GPU Time",
       Call.nvgCreateGL3 5, Call.glfwGetWindowSize 7, Call.glfwGetFramebufferSize 7,
       Call.nvgCreateFont 9 "sans" "assets/Roboto-Regular.ttf",
       Call.initGPUTimer, Call.glfwSetTime 0, Call.glfwGetTime] := by
  simp [readyCore, init, initWindow, initRenderer, initClock, plainBuild, goodInit,
    MuCore.new, MuCore.call, MuCore.callAll, windowHints, GL_FALSE, GL_TRUE,
    GLFW_OPENGL_CORE_PROFILE, GRAPH_RENDER_FPS, GRAPH_RENDER_MS, NVG_ANTIALIAS, NVG_DEBUG]

theorem appCall_frameCalls (f : FrameInput) (s : MuCore) :
    (frameCalls f s).filter isAppCall = appCalls f s := by
  have hpoll : (pollCalls f s).filter isAppCall = [] := by
    rw [List.filter_eq_nil_iff]
    intro c hc
    rw [pollCalls_mem f s c hc]
    simp [isAppCall]
  have hfeed : (feedCalls f s).filter isAppCall = [] := by
    simp [feedCalls, List.filter_eq_nil_iff, isAppCall]
  have happ : (appCalls f s).filter isAppCall = appCalls f s := by
    unfold appCalls; split_ifs <;> simp [isAppCall]
  have hgraph : (graphCalls s).filter isAppCall = [] := by
    unfold graphCalls; split_ifs <;> simp [isAppCall]
  simp [frameCalls, bodyCalls, beginCalls, List.filter_append, hpoll, hfeed, happ, hgraph,
    isAppCall]

theorem rendered_append (a b : List Call) : rendered (a ++ b) = rendered a ++ rendered b := by
  simp [rendered, List.filterMap_append]

theorem rendered_frameCalls (f : FrameInput) (s : MuCore) :
    rendered (frameCalls f s) = rendered (graphCalls s) := by
  have hpoll : rendered (pollCalls f s) = [] := by
    unfold rendered
    rw [List.filterMap_eq_nil_iff]
    intro c hc
    rw [pollCalls_mem f s c hc]
  have hfeed : rendered (feedCalls f s) = [] := by
    simp [feedCalls, rendered, List.filterMap_eq_nil_iff]
  have happ : rendered (appCalls f s) = [] := by
    unfold appCalls; split_ifs <;> simp [rendered]
  have hbegin : rendered (beginCalls f s) = [] := by simp [rendered, beginCalls]
  simp only [frameCalls, bodyCalls, rendered_append, hpoll, hfeed, happ, hbegin]
  simp [rendered]

theorem pixelRatios_append (a b : List Call) :
    pixelRatios (a ++ b) = pixelRatios a ++ pixelRatios b := by
  simp [pixelRatios, List.filterMap_append]

theorem pixelRatios_frameCalls (f : FrameInput) (s : MuCore) :
    pixelRatios (frameCalls f s) = [s.ratio] := by
  have hpoll : pixelRatios (pollCalls f s) = [] := by
    unfold pixelRatios
    rw [List.filterMap_eq_nil_iff]
    intro c hc
    rw [pollCalls_mem f s c hc]
  have hfeed : pixelRatios (feedCalls f s) = [] := by
    simp [feedCalls, pixelRatios, List.filterMap_eq_nil_iff]
  have happ : pixelRatios (appCalls f s) = [] := by
    unfold appCalls; split_ifs <;> simp [pixelRatios]
  have hgraph : pixelRatios (graphCalls s) = [] := by
    unfold graphCalls; split_ifs <;> simp [pixelRatios]
  have hbegin : pixelRatios (beginCalls f s) = [] := by simp [pixelRatios, beginCalls]
  simp only [frameCalls, bodyCalls, pixelRatios_append, hpoll, hfeed, happ, hbegin, hgraph]
  simp [pixelRatios]

theorem terminate_calls (s : MuCore) :
    (terminate s).calls =
      s.calls
        ++ (if s.appController ≠ 0 then [Call.deleteAppController s.appController] else [])
        ++ [Call.nvgDeleteGL3 s.renderer, Call.glfwTerminate] := by
  by_cases h : s.appController = 0 <;> simp [terminate, MuCore.call, h]

theorem drivenCore_fields :
    drivenCore.appController = 5 ∧ drivenCore.renderer = 9 ∧
    drivenCore.keyCallback = true ∧ drivenCore.shouldClose = false ∧
    drivenCore.calls = readyCore.calls :=
  ⟨rfl, readyCore_fields.2.2.2.1, readyCore_fields.2.2.2.2.2.2.1,
    readyCore_fields.2.2.2.2.2.2.2, rfl⟩

theorem escape_closes (t tEnd : Number) (s : MuCore) (hk : s.keyCallback = true) :
    (frame (escapeFrame t tEnd) (loopTest s)).shouldClose = true := by
  simp [frame_eq, loopTest_eq, hk, escapeFrame, closes]

/-- The state lines 161-169 leave behind: only the log grows. -/
theorem frameDraw_eq (s : MuCore) :
    frameDraw s =
      { s with
        calls := s.calls
          ++ [Call.nvgBeginFrame s.renderer s.winWidth s.winHeight s.ratio]
          ++ (if s.appController ≠ 0 then
                [Call.appUpdate s.appController s.dt, Call.appRender s.appController s.renderer]
              else [])
          ++ graphCalls s
          ++ [Call.nvgEndFrame s.renderer] } := by
  cases s
  rename_i w r app ra df ct pt d ww wh fw fh sup sc kc cs
  by_cases ha : app = 0 <;> cases sup <;>
  simp [frameDraw, tickAndRender, update, render, MuCore.call, graphCalls, ha]

theorem fed_frameDraw (g : Graph) (s : MuCore) :
    fed g (frameDraw s).calls = fed g s.calls := by
  rw [frameDraw_eq]
  simp only [fed_append, graphCalls]
  split_ifs <;> simp [fed]

theorem rendered_frameDraw (s : MuCore) :
    rendered (frameDraw s).calls =
      rendered s.calls ++ [Graph.fpsGraph, Graph.cpuGraph]
        ++ (if s.gpuTimerSupported then [Graph.gpuGraph] else []) := by
  rw [frameDraw_eq]
  simp only [rendered_append, graphCalls]
  split_ifs <;> simp [rendered]

theorem frameBegin_log (f : FrameInput) (s : MuCore) :
    (frameBegin f s).calls = s.calls ++ beginCalls f s ∧
    (frameBegin f s).gpuTimerSupported = s.gpuTimerSupported := by
  simp [frameBegin, MuCore.call, beginCalls]

theorem log2Fuel_le (fuel n : Nat) (h1 : n ≤ fuel) (h2 : 1 ≤ n) : 2 ^ log2Fuel fuel n ≤ n := by
  induction fuel generalizing n with
  | zero => omega
  | succ fuel ih =>
    unfold log2Fuel
    split_ifs with h
    · simpa using h2
    · have h3 : 2 ^ log2Fuel fuel (n / 2) ≤ n / 2 := ih (n / 2) (by omega) (by omega)
      rw [pow_succ]
      omega

theorem roundHalfEven_ge (n d : Nat) : n / d ≤ roundHalfEven n d := by
  unfold roundHalfEven
  simp only
  split_ifs <;> omega

theorem roundF32_ne_zero (neg sg : Bool) (n : Nat) (h : 1 ≤ n) :
    roundF32 neg n 1 ≠ F32.zero sg := by
  have hl : 2 ^ floorLog2 n ≤ n := log2Fuel_le n n le_rfl h
  have h1 : floorLog2 1 = 0 := by decide
  have hq : quotExp n 1 = (floorLog2 n : Int) := by
    simp [quotExp, h1, hl]
  have hm : 1 ≤ roundHalfEven (n * 2 ^ (-(max ((floorLog2 n : Int) - 23) (-149))).toNat)
      (1 * 2 ^ (max ((floorLog2 n : Int) - 23) (-149)).toNat) := by
    refine le_trans ?_ (roundHalfEven_ge _ _)
    have hex : max ((floorLog2 n : Int) - 23) (-149) = (floorLog2 n : Int) - 23 := by omega
    rw [hex, one_mul]
    apply (Nat.one_le_div_iff (by positivity)).mpr
    by_cases hL : floorLog2 n ≤ 23
    · have e1 : ((floorLog2 n : Int) - 23).toNat = 0 := by omega
      rw [e1, pow_zero]
      exact le_trans h (Nat.le_mul_of_pos_right _ (by positivity))
    · have e1 : ((floorLog2 n : Int) - 23).toNat = floorLog2 n - 23 := by omega
      have e2 : (-((floorLog2 n : Int) - 23)).toNat = 0 := by omega
      rw [e1, e2, pow_zero, mul_one]
      exact le_trans (Nat.pow_le_pow_right (by norm_num) (by omega)) hl
  unfold roundF32
  simp only [hq]
  split_ifs <;> simp_all

theorem intToF32_ne_zero (a : Int) (h : a ≠ 0) (sg : Bool) : intToF32 a ≠ F32.zero sg := by
  unfold intToF32
  rw [if_neg h]
  exact roundF32_ne_zero _ _ _ (by omega)

/-- C1: on each of the three creation failures handled by `init()` (`glfwInit`
returns 0, `glfwCreateWindow` returns null, `nvgCreateGL3` returns null) the
code executes `return -1` or `return -2` in a function returning `bool`, which
yields `true`: `init()` returns `true` for every input, and the three failure
paths are taken with that result. -/
theorem init_returns_true_on_failure :
    (∀ (b : Build) (i : InitInput) (s : MuCore), (init b i s).1 = true) ∧
    (init plainBuild { goodInit with glfwInit := 0 } MuCore.new).1 = true ∧
    (init plainBuild { goodInit with glfwInit := 0 } MuCore.new).2.calls =
      [Call.glfwInit, Call.printf "Failed to init GLFW."] ∧
    (init plainBuild { goodInit with window := 0 } MuCore.new).1 = true ∧
    (init plainBuild { goodInit with window := 0 } MuCore.new).2.calls.getLast? =
      some Call.glfwTerminate ∧
    (init plainBuild { goodInit with renderer := 0 } MuCore.new).1 = true ∧
    (init plainBuild { goodInit with renderer := 0 } MuCore.new).2.calls.getLast? =
      some (Call.printf "Could not init nanovg.\n") := by
  refine ⟨?_, ?_, ?_, ?_, ?_, ?_, ?_⟩
  · intro b i s
    simp only [init, initWindow, initRenderer, initClock, boolOfInt]
    split_ifs <;> simp
  all_goals
    simp [init, initWindow, initRenderer, initClock, boolOfInt, plainBuild, goodInit,
      MuCore.new, MuCore.call, MuCore.callAll, windowHints]

/-- C2: for non-decreasing clock readings, starting from the reading `init()`
stores in `prevt` (the reading of line 129 when every creation succeeded), the
frame delta `dt = t - prevt` computed at the top of every iteration of `start()`
is non-negative, and after the computation `prevt` is the reading `t` just
taken. -/
theorem frame_delta_nonneg (b : Build) (i : InitInput) (s0 : MuCore)
    (fs : List FrameInput)
    (hmono : List.Sorted (· ≤ ·) ((init b i s0).2.prevt :: readings fs)) :
    (initOk b i = true → (init b i s0).2.prevt = i.time) ∧
    ∀ p ∈ iterations fs (init b i s0).2,
      (frameBegin p.2 p.1).dt = p.2.time - p.1.prevt ∧
      0 ≤ (frameBegin p.2 p.1).dt ∧
      (frameBegin p.2 p.1).prevt = p.2.time ∧
      (frame p.2 p.1).dt = (frameBegin p.2 p.1).dt ∧
      (frame p.2 p.1).prevt = p.2.time := by
  refine ⟨fun h => (init_ok_fields b i s0 h).1, ?_⟩
  intro p hp
  have h := delta_of_sorted fs _ hmono p hp
  have hb : (frameBegin p.2 p.1).dt = p.2.time - p.1.prevt ∧
      (frameBegin p.2 p.1).prevt = p.2.time := by
    simp [frameBegin, MuCore.call]
  exact ⟨hb.1, hb.1 ▸ h.1 ▸ h.2.1, hb.2, by rw [hb.1, h.1], h.2.2⟩

/-- Witness of C2: two iterations after a successful `init()`. -/
theorem frame_delta_nonneg_witness :
    List.Sorted (· ≤ ·)
      ((init plainBuild goodInit MuCore.new).2.prevt
        :: readings [quietFrame 1 2, quietFrame 3 4]) ∧
    (iterations [quietFrame 1 2, quietFrame 3 4]
      (init plainBuild goodInit MuCore.new).2).length = 2 ∧
    ∀ p ∈ iterations [quietFrame 1 2, quietFrame 3 4] (init plainBuild goodInit MuCore.new).2,
      0 ≤ (frameBegin p.2 p.1).dt ∧ (frameBegin p.2 p.1).prevt = p.2.time :=
  have h : List.Sorted (· ≤ ·)
      ((init plainBuild goodInit MuCore.new).2.prevt
        :: readings [quietFrame 1 2, quietFrame 3 4]) := by
    have hp : (init plainBuild goodInit MuCore.new).2.prevt = 0 := readyCore_fields.1
    rw [hp]
    simp [readings, quietFrame]
    norm_num
  ⟨h, iterations_two_quiet 1 2 3 4 _ readyCore_fields.2.2.2.2.2.2.2,
    fun p hp =>
      ⟨((frame_delta_nonneg plainBuild goodInit MuCore.new _ h).2 p hp).2.1,
       ((frame_delta_nonneg plainBuild goodInit MuCore.new _ h).2 p hp).2.2.1⟩⟩

/-- C3: under a monotonic clock, in every iteration of `start()` that is
followed by another one, the `cpuTime` measured at line 173 (reading after
`nvgEndFrame` minus the reading `t` of line 143) is at most the frame delta
computed by the next iteration, which is the time from this iteration's tick
to the next one. -/
theorem cpu_time_le_frame_time (fs : List FrameInput) (s : MuCore)
    (hmono : List.Sorted (· ≤ ·) (readings fs)) :
    List.Chain'
      (fun p q : MuCore × FrameInput =>
        (frame p.2 p.1).cpuTime = p.2.timeEnd - p.2.time ∧
        (frame q.2 q.1).dt = q.2.time - p.2.time ∧
        (frame p.2 p.1).cpuTime ≤ (frame q.2 q.1).dt)
      (iterations fs s) :=
  cpu_of_sorted fs s hmono

/-- Witness of C3: two consecutive iterations. -/
theorem cpu_time_le_frame_time_witness :
    List.Sorted (· ≤ ·) (readings [quietFrame 1 2, quietFrame 3 4]) ∧
    (iterations [quietFrame 1 2, quietFrame 3 4] readyCore).length = 2 ∧
    List.Chain'
      (fun p q : MuCore × FrameInput =>
        (frame p.2 p.1).cpuTime = p.2.timeEnd - p.2.time ∧
        (frame q.2 q.1).dt = q.2.time - p.2.time ∧
        (frame p.2 p.1).cpuTime ≤ (frame q.2 q.1).dt)
      (iterations [quietFrame 1 2, quietFrame 3 4] readyCore) :=
  have h : List.Sorted (· ≤ ·) (readings [quietFrame 1 2, quietFrame 3 4]) := by
    simp [readings, quietFrame]
    norm_num
  ⟨h, iterations_two_quiet 1 2 3 4 _ readyCore_fields.2.2.2.2.2.2.2,
    cpu_time_le_frame_time _ readyCore h⟩

/-- C4: after the `N` iterations `start()` executes, the FPS graph and the CPU
graph have each been fed exactly `N` more samples (the `dt` and the `cpuTime`
of each iteration, in order), and the GPU graph has been fed as many samples as
the sum of the counts returned by `stopGPUTimer` (a negative return value makes
the `for` loop run no iteration and counts as zero); when `stopGPUTimer`
returns 0 on every call, the GPU graph has been fed no sample. -/
theorem graphs_fed_per_iteration (fs : List FrameInput) (s : MuCore) :
    fed Graph.fpsGraph (loopState fs s).calls =
      fed Graph.fpsGraph s.calls ++ (iterations fs s).map (fun p => (frame p.2 p.1).dt) ∧
    fed Graph.cpuGraph (loopState fs s).calls =
      fed Graph.cpuGraph s.calls ++ (iterations fs s).map (fun p => (frame p.2 p.1).cpuTime) ∧
    (fed Graph.fpsGraph (loopState fs s).calls).length =
      (fed Graph.fpsGraph s.calls).length + (iterations fs s).length ∧
    (fed Graph.cpuGraph (loopState fs s).calls).length =
      (fed Graph.cpuGraph s.calls).length + (iterations fs s).length ∧
    (fed Graph.gpuGraph (loopState fs s).calls).length =
      (fed Graph.gpuGraph s.calls).length
        + ((iterations fs s).map (fun p => p.2.gpuCount.toNat)).sum ∧
    ((∀ p ∈ iterations fs s, 0 ≤ p.2.gpuCount) →
      ((fed Graph.gpuGraph (loopState fs s).calls).length : Int) =
        (fed Graph.gpuGraph s.calls).length
          + ((iterations fs s).map (fun p => p.2.gpuCount)).sum) ∧
    ((∀ p ∈ iterations fs s, p.2.gpuCount = 0) →
      fed Graph.gpuGraph (loopState fs s).calls = fed Graph.gpuGraph s.calls) := by
  have hf : fed Graph.fpsGraph (loopState fs s).calls =
      fed Graph.fpsGraph s.calls ++ (iterations fs s).map (fun p => (frame p.2 p.1).dt) := by
    rw [fed_loopState]
    simp [fed_frameCalls, frame_eq, flatMap_single]
  have hcpu : fed Graph.cpuGraph (loopState fs s).calls =
      fed Graph.cpuGraph s.calls ++ (iterations fs s).map (fun p => (frame p.2 p.1).cpuTime) := by
    rw [fed_loopState]
    simp [fed_frameCalls, frame_eq, flatMap_single]
  have hg : (fed Graph.gpuGraph (loopState fs s).calls).length =
      (fed Graph.gpuGraph s.calls).length
        + ((iterations fs s).map (fun p => p.2.gpuCount.toNat)).sum := by
    rw [fed_loopState]
    simp [fed_frameCalls, List.length_flatMap, Function.comp_def]
  refine ⟨hf, hcpu, by simp [hf], by simp [hcpu], hg, ?_, ?_⟩
  · intro h
    rw [hg]
    push_cast
    congr 1
    generalize iterations fs s = l at h
    induction l with
    | nil => simp
    | cons p l ih =>
      simp only [List.map_cons, List.sum_cons, Nat.cast_add]
      rw [ih (fun q hq => h q (List.mem_cons_of_mem _ hq)),
        Int.toNat_of_nonneg (h p (List.mem_cons_self _ _))]
  · intro h
    rw [fed_loopState]
    have : ∀ p ∈ iterations fs s, fed Graph.gpuGraph (frameCalls p.2 p.1) = [] := by
      intro p hp
      simp [fed_frameCalls, h p hp]
    simp only [List.append_right_eq_self, List.flatMap_eq_nil_iff]
    exact this

/-- Witness of C4: one iteration with two GPU samples, one with none. -/
theorem graphs_fed_per_iteration_witness :
    (∀ p ∈ iterations [gpuFrame 1 2, quietFrame 3 4] readyCore, 0 ≤ p.2.gpuCount) ∧
    ((fed Graph.gpuGraph (loopState [gpuFrame 1 2, quietFrame 3 4] readyCore).calls).length
        : Int) =
      (fed Graph.gpuGraph readyCore.calls).length
        + ((iterations [gpuFrame 1 2, quietFrame 3 4] readyCore).map
            (fun p => p.2.gpuCount)).sum :=
  have h : ∀ p ∈ iterations [gpuFrame 1 2, quietFrame 3 4] readyCore, 0 ≤ p.2.gpuCount := by
    intro p hp
    have hm := iterations_input_mem _ _ p hp
    simp only [List.mem_cons, List.mem_singleton, List.not_mem_nil, or_false] at hm
    rcases hm with hm | hm <;> rw [hm] <;> simp [gpuFrame, quietFrame]
  ⟨h, (graphs_fed_per_iteration _ readyCore).2.2.2.2.2.1 h⟩

/-- C5: the key callback sets the close signal when called with the escape key
and the press action, and changes nothing for any other key or action.  When
that happens during the event poll of an iteration, every other step of the
iteration (lines 143-185) has already been executed, the iteration ends with
the signal set, and the loop starts no further iteration whatever input is
still to come: `start()` returns at the next test of the loop condition.  The
close signal is queried by no step of an iteration. -/
theorem escape_press_ends_loop :
    (∀ (w : Nat) (sc m : Int) (s : MuCore),
      (key w GLFW_KEY_ESCAPE sc GLFW_PRESS m s).shouldClose = true) ∧
    (∀ (w : Nat) (k sc a m : Int) (s : MuCore),
      ¬ (k = GLFW_KEY_ESCAPE ∧ a = GLFW_PRESS) → key w k sc a m s = s) ∧
    (∀ (f : FrameInput) (s : MuCore) (w : Nat), Call.glfwWindowShouldClose w ∉ frameCalls f s) ∧
    (∀ (f : FrameInput) (fs : List FrameInput) (s : MuCore) (sc m : Int),
      s.shouldClose = false → s.keyCallback = true →
      WindowEvent.key GLFW_KEY_ESCAPE sc GLFW_PRESS m ∈ f.events →
        (frame f (loopTest s)).calls =
          (loopTest s).calls ++ bodyCalls f (loopTest s)
            ++ Call.glfwPollEvents :: pollCalls f (loopTest s) ∧
        Call.glfwSetWindowShouldClose s.window GL_TRUE ∈ pollCalls f (loopTest s) ∧
        (frame f (loopTest s)).shouldClose = true ∧
        iterations (f :: fs) s = [(loopTest s, f)] ∧
        start (f :: fs) s = some (loopTest (frame f (loopTest s)))) := by
  refine ⟨?_, ?_, test_not_in_frameCalls, ?_⟩
  · intro w sc m s
    simp [key, glfwSetWindowShouldClose, GL_TRUE]
  · intro w k sc a m s h
    simp only [key]
    rw [if_neg]
    simpa using h
  · intro f fs s sc m hs hk he
    have hclose : (frame f (loopTest s)).shouldClose = true := by
      rw [frame_eq]
      simp only [loopTest_eq, hs, hk, Bool.false_or, List.any_eq_true]
      exact ⟨_, he, by simp [closes]⟩
    refine ⟨by simp [frame_eq, frameCalls], ?_, hclose, ?_, ?_⟩
    · simp only [pollCalls, List.mem_flatMap]
      exact ⟨_, he, by simp [callbackCalls, loopTest_eq, hk]⟩
    · rw [iterations_cons_open _ _ _ hs, iterations_closed _ _ hclose]
    · rw [start_eq]
      simp [loopState, hs, hclose]
      cases fs <;> simp [loopState, hclose]

/-- Witness of C5: the escape key is pressed in the first iteration after a
successful `init()`, with another frame still in the script. -/
theorem escape_press_ends_loop_witness :
    readyCore.shouldClose = false ∧ readyCore.keyCallback = true ∧
    WindowEvent.key GLFW_KEY_ESCAPE 9 GLFW_PRESS 0 ∈ (escapeFrame 1 2).events ∧
    start [escapeFrame 1 2, quietFrame 3 4] readyCore =
      some (loopTest (frame (escapeFrame 1 2) (loopTest readyCore))) :=
  ⟨readyCore_fields.2.2.2.2.2.2.2, readyCore_fields.2.2.2.2.2.2.1, by simp [escapeFrame],
    (escape_press_ends_loop.2.2.2 (escapeFrame 1 2) [quietFrame 3 4] readyCore 9 0
      readyCore_fields.2.2.2.2.2.2.2 readyCore_fields.2.2.2.2.2.2.1
      (by simp [escapeFrame])).2.2.2.2⟩

/-- Counterexample to C6 as stated: in the first iteration after `init()` the
frame-delta sample is handed to its graph (call 13 of the iteration) before
the buffers are swapped (call 16). -/
theorem fed_after_swap_fails :
    (iterationCalls (quietFrame 1 2) (loopTest readyCore))[13]? =
      some (Call.updateGraph Graph.fpsGraph 1) ∧
    (iterationCalls (quietFrame 1 2) (loopTest readyCore))[16]? =
      some (Call.glfwSwapBuffers 7) ∧
    ¬ FedAfterSwap (iterationCalls (quietFrame 1 2) (loopTest readyCore)) := by
  have hw : (loopTest readyCore).window = 7 := readyCore_fields.2.2.1
  have ha : (loopTest readyCore).appController = 0 := readyCore_fields.2.2.2.2.1
  have hg : (loopTest readyCore).gpuTimerSupported = false := readyCore_fields.2.2.2.2.2.1
  have hp : (loopTest readyCore).prevt = 0 := readyCore_fields.1
  have h13 : (iterationCalls (quietFrame 1 2) (loopTest readyCore))[13]? =
      some (Call.updateGraph Graph.fpsGraph 1) := by
    simp [iterationCalls_eq, frameCalls, bodyCalls, beginCalls, appCalls, graphCalls,
      feedCalls, pollCalls, hw, ha, hg, hp, quietFrame]
  have h16 : (iterationCalls (quietFrame 1 2) (loopTest readyCore))[16]? =
      some (Call.glfwSwapBuffers 7) := by
    simp [iterationCalls_eq, frameCalls, bodyCalls, beginCalls, appCalls, graphCalls,
      feedCalls, pollCalls, hw, ha, hg, hp, quietFrame]
  refine ⟨h13, h16, fun h => ?_⟩
  have h1 := h 16 13 7 Graph.fpsGraph 1 h16 h13
  omega

/-- C6, amended: every iteration makes its calls in the order of the source:
frame timer, GPU timer, pointer and sizes, viewport and clear, begin frame,
application update and render, graph rendering, end frame, the clock reading
for the CPU time, the frame-delta and CPU samples fed to their graphs,
`stopGPUTimer` and the GPU samples fed to the GPU graph, then the buffer swap,
then the event poll.  All samples are fed before the buffer swap. -/
theorem iteration_call_order (f : FrameInput) (s : MuCore) :
    (frame f s).calls =
      s.calls
        ++ beginCalls f s
        ++ [Call.nvgBeginFrame s.renderer f.winWidth f.winHeight s.ratio]
        ++ appCalls f s
        ++ graphCalls s
        ++ [Call.nvgEndFrame s.renderer, Call.glfwGetTime]
        ++ feedCalls f s
        ++ [Call.glfwSwapBuffers s.window, Call.glfwPollEvents]
        ++ pollCalls f s ∧
    (frame f s).cpuTime = f.timeEnd - f.time ∧
    FedBeforeSwap (iterationCalls f s) := by
  refine ⟨by simp [frame_eq, frameCalls, bodyCalls], by simp [frame_eq], ?_⟩
  intro i j w g v hi hj
  rw [iterationCalls_eq] at hi hj
  have hsplit : frameCalls f s =
      (beginCalls f s ++ [Call.nvgBeginFrame s.renderer f.winWidth f.winHeight s.ratio]
        ++ appCalls f s ++ graphCalls s ++ [Call.nvgEndFrame s.renderer, Call.glfwGetTime]
        ++ feedCalls f s)
      ++ (Call.glfwSwapBuffers s.window :: Call.glfwPollEvents :: pollCalls f s) := by
    simp [frameCalls, bodyCalls]
  rw [hsplit] at hi hj
  refine index_lt_of_split _ _ (fun c => ∃ w, c = Call.glfwSwapBuffers w)
    (fun c => ∃ g v, c = Call.updateGraph g v) ?_ ?_ i j _ _ hi ⟨w, rfl⟩ hj ⟨g, v, rfl⟩
  · intro a ha
    simp only [beginCalls, appCalls, graphCalls, feedCalls] at ha
    split_ifs at ha <;> simp at ha <;> rcases ha with h | h <;> aesop
  · intro b hb
    simp only [List.mem_cons] at hb
    rcases hb with rfl | rfl | hb
    · simp
    · simp
    · rw [pollCalls_mem f s b hb]; simp

/-- Counterexample to C7 as stated: after a successful `init()`, with an
Application Controller attached, and one iteration in which the escape key is
pressed, `start()` observes the close signal and returns, and the log holds no
`delete appController`, no `nvgDeleteGL3` and no `glfwTerminate`. -/
theorem start_returns_without_release :
    drivenCore.appController = 5 ∧
    start [escapeFrame 1 2] drivenCore =
      some (loopTest (frame (escapeFrame 1 2) (loopTest drivenCore))) ∧
    (loopTest (frame (escapeFrame 1 2) (loopTest drivenCore))).calls.filter isRelease = [] := by
  have hs : drivenCore.shouldClose = false := drivenCore_fields.2.2.2.1
  have hclose := escape_closes 1 2 drivenCore drivenCore_fields.2.2.1
  refine ⟨rfl, by simp [start, hs, hclose], ?_⟩
  simp [loopTest_eq, frame_eq, release_frameCalls, drivenCore_fields.2.2.2.2, readyCore_calls,
    isRelease]

/-- C7, amended: when the loop of `start()` observes the close signal at the
top of an iteration, `start()` returns, without having released anything; the
Application Controller, the renderer and the window/context are released by
`terminate()`, in that order: `delete appController` (which destroys the
controller when the pointer is not null), `nvgDeleteGL3(renderer)`,
`glfwTerminate()`. -/
theorem release_is_done_by_terminate (fs : List FrameInput) (s : MuCore)
    (hclose : (loopState fs s).shouldClose = true) :
    start fs s = some (loopTest (loopState fs s)) ∧
    (loopTest (loopState fs s)).calls.filter isRelease = s.calls.filter isRelease ∧
    (terminate (loopTest (loopState fs s))).calls =
      (loopTest (loopState fs s)).calls
        ++ (if s.appController ≠ 0 then [Call.deleteAppController s.appController] else [])
        ++ [Call.nvgDeleteGL3 s.renderer, Call.glfwTerminate] := by
  obtain ⟨h3, h4, h5⟩ := loopState_fixed fs s
  refine ⟨by rw [start_eq, if_pos hclose], ?_, ?_⟩
  · simp [loopTest_eq, h5, isRelease]
  · rw [terminate_calls]
    simp [loopTest_eq, h3, h4]

/-- Witness of C7: a successful `init()`, an Application Controller attached,
the escape key pressed in the first iteration and a further frame in the
script; `terminate()` then destroys the controller, the renderer and the
window/context. -/
theorem release_is_done_by_terminate_witness :
    (loopState [escapeFrame 1 2, quietFrame 3 4] drivenCore).shouldClose = true ∧
    start [escapeFrame 1 2, quietFrame 3 4] drivenCore =
      some (loopTest (loopState [escapeFrame 1 2, quietFrame 3 4] drivenCore)) ∧
    (terminate (loopTest (loopState [escapeFrame 1 2, quietFrame 3 4] drivenCore))).calls =
      (loopTest (loopState [escapeFrame 1 2, quietFrame 3 4] drivenCore)).calls
        ++ [Call.deleteAppController 5, Call.nvgDeleteGL3 9, Call.glfwTerminate] :=
  have hs : drivenCore.shouldClose = false := drivenCore_fields.2.2.2.1
  have hclose : (loopState [escapeFrame 1 2, quietFrame 3 4] drivenCore).shouldClose = true := by
    simp [loopState, hs, escape_closes 1 2 drivenCore drivenCore_fields.2.2.1]
  ⟨hclose, (release_is_done_by_terminate _ drivenCore hclose).1, by
    have h := (release_is_done_by_terminate _ drivenCore hclose).2.2
    rw [drivenCore_fields.1, drivenCore_fields.2.1] at h
    simpa using h⟩

/-- Counterexample to C8 as stated: `MuCore()` sets `appController` to null and
`init()` leaves it so; in the first iteration after `init()` neither `update`
nor `render` of the Application Controller is called. -/
theorem app_controller_not_invoked :
    readyCore.appController = 0 ∧
    (iterationCalls (quietFrame 1 2) (loopTest readyCore)).filter isAppCall = [] := by
  have ha : (loopTest readyCore).appController = 0 := readyCore_fields.2.2.2.2.1
  exact ⟨readyCore_fields.2.2.2.2.1, by simp [iterationCalls_eq, appCall_frameCalls, appCalls, ha]⟩

/-- C8, amended: in every iteration in which `appController` is not null, the
Application Controller is invoked exactly once: `update` with the frame delta
`dt` computed at the top of the same iteration, followed by `render` with the
renderer, both after `nvgBeginFrame`, before the performance graphs are
rendered and before `nvgEndFrame`.  When `appController` is null, neither is
called. -/
theorem app_controller_invoked_when_set (f : FrameInput) (s : MuCore) :
    iterationCalls f s =
      beginCalls f s
        ++ Call.nvgBeginFrame s.renderer f.winWidth f.winHeight s.ratio
        :: (appCalls f s ++ graphCalls s
        ++ Call.nvgEndFrame s.renderer
        :: (Call.glfwGetTime :: feedCalls f s
        ++ [Call.glfwSwapBuffers s.window, Call.glfwPollEvents] ++ pollCalls f s)) ∧
    (iterationCalls f s).filter isAppCall = appCalls f s ∧
    (graphCalls s).filter isAppCall = [] ∧
    (s.appController ≠ 0 →
      appCalls f s =
        [Call.appUpdate s.appController (frameBegin f s).dt,
         Call.appRender s.appController s.renderer]) ∧
    (s.appController = 0 → appCalls f s = []) := by
  refine ⟨by simp [iterationCalls_eq, frameCalls, bodyCalls], ?_, ?_, ?_, ?_⟩
  · rw [iterationCalls_eq, appCall_frameCalls]
  · unfold graphCalls; split_ifs <;> simp [isAppCall]
  · intro h
    simp [appCalls, h, frameBegin, MuCore.call]
  · intro h
    simp [appCalls, h]

/-- Witness of C8: an iteration with an Application Controller attached. -/
theorem app_controller_invoked_when_set_witness :
    drivenCore.appController ≠ 0 ∧
    (iterationCalls (quietFrame 1 2) drivenCore).filter isAppCall =
      [Call.appUpdate drivenCore.appController (frameBegin (quietFrame 1 2) drivenCore).dt,
       Call.appRender drivenCore.appController drivenCore.renderer] :=
  have h : drivenCore.appController ≠ 0 := by simp [drivenCore]
  ⟨h, ((app_controller_invoked_when_set (quietFrame 1 2) drivenCore).2.1).trans
    ((app_controller_invoked_when_set (quietFrame 1 2) drivenCore).2.2.2.1 h)⟩

/-- C9: in every iteration the frame-time graph and the CPU-time graph are
each rendered exactly once, in that order, and the GPU-time graph is rendered
once when `gpuTimer.supported` is true and not at all otherwise.  All of this
rendering happens in lines 161-169, and executing these lines, from
`nvgBeginFrame` to `nvgEndFrame`, feeds no sample into any graph: the samples
in the log are the same before and after.  The iteration leaves
`gpuTimer.supported` as it found it. -/
theorem graphs_rendered_once (f : FrameInput) (s : MuCore) :
    rendered (iterationCalls f s) =
      [Graph.fpsGraph, Graph.cpuGraph]
        ++ (if s.gpuTimerSupported then [Graph.gpuGraph] else []) ∧
    (rendered (iterationCalls f s)).count Graph.fpsGraph = 1 ∧
    (rendered (iterationCalls f s)).count Graph.cpuGraph = 1 ∧
    (rendered (iterationCalls f s)).count Graph.gpuGraph
      = (if s.gpuTimerSupported then 1 else 0) ∧
    frame f s = frameEnd f f.time (frameDraw (frameBegin f s)) ∧
    rendered (frameDraw (frameBegin f s)).calls =
      rendered s.calls ++ rendered (iterationCalls f s) ∧
    (∀ g : Graph, fed g (frameDraw (frameBegin f s)).calls = fed g s.calls) ∧
    (∀ (g : Graph) (s1 : MuCore), fed g (frameDraw s1).calls = fed g s1.calls) ∧
    (∀ s1 : MuCore,
      rendered (frameDraw s1).calls =
        rendered s1.calls ++ [Graph.fpsGraph, Graph.cpuGraph]
          ++ (if s1.gpuTimerSupported then [Graph.gpuGraph] else [])) ∧
    (frame f s).gpuTimerSupported = s.gpuTimerSupported := by
  have h : rendered (iterationCalls f s) =
      [Graph.fpsGraph, Graph.cpuGraph]
        ++ (if s.gpuTimerSupported then [Graph.gpuGraph] else []) := by
    rw [iterationCalls_eq, rendered_frameCalls]
    unfold graphCalls
    split_ifs <;> simp [rendered]
  have hb : rendered (frameBegin f s).calls = rendered s.calls := by
    rw [(frameBegin_log f s).1, rendered_append]
    simp [rendered, beginCalls]
  have hfb : ∀ g : Graph, fed g (frameBegin f s).calls = fed g s.calls := by
    intro g
    rw [(frameBegin_log f s).1, fed_append]
    simp [fed, beginCalls]
  refine ⟨h, ?_, ?_, ?_, rfl, ?_, ?_, fed_frameDraw, rendered_frameDraw, by simp [frame_eq]⟩
  · rw [h]; split_ifs <;> decide
  · rw [h]; split_ifs <;> decide
  · rw [h]; split_ifs <;> decide
  · rw [rendered_frameDraw, hb, h, (frameBegin_log f s).2, List.append_assoc]
  · intro g
    rw [fed_frameDraw, hfb]

/-- Counterexample to C10 as stated: `init()` computes `ratio` as
`(float)960 / (float)960`, which is 1; an iteration that reads a window width
of 960 and a framebuffer width of 1920 still hands the ratio 1 to
`nvgBeginFrame`, not `(float)1920 / (float)960`, which is 2. -/
theorem pixel_ratio_is_stale :
    (hiDpiFrame 1 2).winWidth ≠ 0 ∧
    pixelRatios (iterationCalls (hiDpiFrame 1 2) (loopTest readyCore)) =
      [F32.finite false 8388608 (-23)] ∧
    F32.div (intToF32 (hiDpiFrame 1 2).fbWidth) (intToF32 (hiDpiFrame 1 2).winWidth) =
      F32.finite false 8388608 (-22) ∧
    ¬ pixelRatios (iterationCalls (hiDpiFrame 1 2) (loopTest readyCore)) =
      [F32.div (intToF32 (hiDpiFrame 1 2).fbWidth) (intToF32 (hiDpiFrame 1 2).winWidth)] := by
  have hr : (loopTest readyCore).ratio = F32.finite false 8388608 (-23) := readyCore_fields.2.1
  have h : pixelRatios (iterationCalls (hiDpiFrame 1 2) (loopTest readyCore)) =
      [F32.finite false 8388608 (-23)] := by
    rw [iterationCalls_eq, pixelRatios_frameCalls, hr]
  have hd : F32.div (intToF32 (hiDpiFrame 1 2).fbWidth) (intToF32 (hiDpiFrame 1 2).winWidth) =
      F32.finite false 8388608 (-22) := by decide
  refine ⟨by decide, h, hd, ?_⟩
  rw [h, hd]
  decide

/-- C10, amended: in every iteration the pixel ratio handed to `nvgBeginFrame`
is the member `ratio`, which the loop never writes; after an `init()` in which
every creation succeeded and which read a non-zero window width, it is
`(float)fbWidth / (float)winWidth` for the window and framebuffer sizes read by
`init()`, a division whose divisor is not zero, whatever sizes the iteration
reads. -/
theorem pixel_ratio_from_init (b : Build) (i : InitInput) (s0 : MuCore)
    (fs : List FrameInput) (hok : initOk b i = true) (hw : i.winWidth ≠ 0) :
    (∀ (f : FrameInput) (s : MuCore), pixelRatios (iterationCalls f s) = [s.ratio]) ∧
    (∀ (f : FrameInput) (s : MuCore), (frame f s).ratio = s.ratio) ∧
    (∀ sg : Bool, intToF32 i.winWidth ≠ F32.zero sg) ∧
    ∀ p ∈ iterations fs (init b i s0).2,
      pixelRatios (iterationCalls p.2 p.1) =
        [F32.div (intToF32 i.fbWidth) (intToF32 i.winWidth)] := by
  refine ⟨fun f s => by rw [iterationCalls_eq, pixelRatios_frameCalls],
    fun f s => by simp [frame_eq], intToF32_ne_zero i.winWidth hw, ?_⟩
  intro p hp
  rw [iterationCalls_eq, pixelRatios_frameCalls, (iterations_fixed fs _ p hp).2.2.2.1,
    (init_ok_fields b i s0 hok).2.2.1]

/-- Witness of C10: two iterations reading a doubled framebuffer after a
successful `init()` that read a window and a framebuffer 960 wide. -/
theorem pixel_ratio_from_init_witness :
    initOk plainBuild goodInit = true ∧ goodInit.winWidth ≠ 0 ∧
    (iterations [hiDpiFrame 1 2, hiDpiFrame 3 4]
      (init plainBuild goodInit MuCore.new).2).length = 2 ∧
    ∀ p ∈ iterations [hiDpiFrame 1 2, hiDpiFrame 3 4] (init plainBuild goodInit MuCore.new).2,
      pixelRatios (iterationCalls p.2 p.1) = [F32.finite false 8388608 (-23)] :=
  ⟨rfl, by decide,
    by
      have hs : (init plainBuild goodInit MuCore.new).2.shouldClose = false :=
        readyCore_fields.2.2.2.2.2.2.2
      simp [iterations, hs, frame_eq, loopTest_eq, hiDpiFrame, quietFrame],
    fun p hp =>
      ((pixel_ratio_from_init plainBuild goodInit MuCore.new _ rfl (by decide)).2.2.2 p hp).trans
        (by decide)⟩

end mural
